import Mathlib

/-!
Shallow embedding of the llm-orchestra command-orchestration core
(src/utils/safety.py, src/utils/session.py, src/utils/context_inference.py,
src/orchestrator/workflow_engine.py) and proofs about its behaviour.

Python dynamic values (parameters, results, references) are embedded as a
JSON-like `Value` type; Python dicts as association lists with last-wins
update; `datetime.now()` as an externally supplied tick; the language-model
and Google-service collaborators as oracle functions supplied to each call.
-/

namespace Orchestra

/-- A Python value as it occurs in parameter maps and command results:
strings, integers, booleans, lists, string-keyed dicts, and None. -/
inductive Value where
  | str : String → Value
  | int : Int → Value
  | bool : Bool → Value
  | list : List Value → Value
  | dict : List (String × Value) → Value
  | none : Value

instance : Inhabited Value := ⟨Value.none⟩

/-- Python truthiness of an embedded value ("if x:"). -/
def Value.truthy : Value → Bool
  | .str s => s ≠ ""
  | .int n => n ≠ 0
  | .bool b => b
  | .list l => !l.isEmpty
  | .dict d => !d.isEmpty
  | .none => false

/-- A Python `dict[str, Any]` as an association list (insertion order kept,
one entry per key). -/
abbrev Dict := List (String × Value)

/-- `d.get(k)`: `some v` iff key `k` is present with value `v` (generic over
the value type, since session references hold records as well as values). -/
def dget {α : Type} (d : List (String × α)) (k : String) : Option α :=
  match d with
  | [] => Option.none
  | (k', v) :: rest => if k = k' then some v else dget rest k

/-- `d[k] = v`: last-wins update, in place when the key exists. -/
def dset {α : Type} (d : List (String × α)) (k : String) (v : α) :
    List (String × α) :=
  match d with
  | [] => [(k, v)]
  | (k', v') :: rest => if k = k' then (k', v) :: rest else (k', v') :: dset rest k v

/-- `d.get(k)` on an embedded dict value (`Value.dict`); on any other shape
the source would raise, which no claim exercises: modelled as None. -/
def vget (v : Value) (k : String) : Value :=
  match v with
  | .dict d => (dget d k).getD .none
  | _ => .none

/-! ## String helpers (Python `in`, `find`, `strip`, `split`) -/

/-- `leadsWith needle hay`: `hay` starts with `needle`. -/
def leadsWith : List Char → List Char → Bool
  | [], _ => true
  | _ :: _, [] => false
  | a :: as, b :: bs => a == b && leadsWith as bs

/-- `hasSub needle hay`: `needle` occurs contiguously in `hay`
(Python `needle in hay` on strings). -/
def hasSub (needle : List Char) : List Char → Bool
  | [] => leadsWith needle []
  | c :: t => leadsWith needle (c :: t) || hasSub needle t

/-- Python `needle in hay` for strings. -/
def strIn (needle hay : String) : Bool :=
  hasSub needle.data hay.data

/-- Python `any(p in hay for p in needles)`. -/
def anyIn (needles : List String) (hay : String) : Bool :=
  needles.any fun p => strIn p hay

/-- Python `s.lower()` (ASCII case folding, which covers every string this
program compares). -/
def pyLower (s : String) : String :=
  String.mk (s.data.map Char.toLower)

/-! ## Safety & Undo Engine (src/utils/safety.py) -/

/-- `ActionType` enum from safety.py. -/
inductive ActionType where
  | send_email | delete_email | create_event | delete_event
  | share_file | delete_file | move_file
deriving DecidableEq, Repr

/-- `UndoAction` dataclass from safety.py (timestamp as a tick). -/
structure UndoAction where
  action_type : ActionType
  timestamp : Nat
  resource_id : String
  details : Dict
  service : String
  undo_data : Option Dict := Option.none

/-- `SafetyManager` state: dry-run flag, undo stack, capacity. -/
structure SafetyManager where
  dry_run : Bool := false
  undo_stack : List UndoAction := []
  max_undo_actions : Nat := 10

def SafetyManager.new (dry_run : Bool := false) : SafetyManager :=
  { dry_run := dry_run }

/-- `SafetyManager.is_destructive`: membership in the fixed list. -/
def is_destructive (intent : String) : Bool :=
  intent ∈ ["delete_email", "delete_event", "delete_file", "move_file",
            "send_email", "share_file", "update_event", "update_file"]

/-- `SafetyManager._is_internal_email`: `'@example.com' in email.lower()`. -/
def is_internal_email (email : String) : Bool :=
  strIn "@example.com" (pyLower email)

/-- `SafetyManager.requires_confirmation`. The two intent-specific checks are
sequential `if` returns in the source; since an intent string cannot equal
both "send_email" and "share_file" they chain as below. -/
def requires_confirmation (intent : String) (parameters : Dict) : Bool :=
  if is_destructive intent then true
  else if intent = "send_email" then
    match dget parameters "to" with
    | some (.list recipients) => decide (recipients.length > 3)
    | _ => false
  else if intent = "share_file" then
    match dget parameters "email" with
    | some (.str email) => email ≠ "" && !is_internal_email email
    | _ => false
  else false

/-- The inputs of one `record_action` call (timestamp supplied as a tick). -/
structure ActionInput where
  a_type : ActionType
  resource_id : String
  service : String
  details : Dict
  undo_data : Option Dict
  now : Nat

/-- The `UndoAction` that `record_action` constructs from its arguments. -/
def mkAction (i : ActionInput) : UndoAction :=
  { action_type := i.a_type, timestamp := i.now, resource_id := i.resource_id,
    details := i.details, service := i.service, undo_data := i.undo_data }

/-- `SafetyManager.record_action`: append, then `pop(0)` when the stack
exceeds `max_undo_actions`. -/
def record_action (m : SafetyManager) (i : ActionInput) : SafetyManager :=
  { m with undo_stack :=
      if (m.undo_stack ++ [mkAction i]).length > m.max_undo_actions
      then (m.undo_stack ++ [mkAction i]).drop 1
      else m.undo_stack ++ [mkAction i] }

/-- `SafetyManager.get_undo_stack` (returns a copy of the list). -/
def get_undo_stack (m : SafetyManager) : List UndoAction :=
  m.undo_stack

/-- A sequence of `record_action` calls, oldest first. -/
def record_all (m : SafetyManager) (inputs : List ActionInput) : SafetyManager :=
  inputs.foldl record_action m

/-! ## Session Memory (src/utils/session.py) -/

/-- `CommandResult` dataclass from session.py (timestamp as a tick,
`result: Any` as a `Value`, Python `None` result as `Value.none`). -/
structure CommandResult where
  command : String
  timestamp : Nat
  service : String
  intent : String
  parameters : Dict
  result : Value
  success : Bool
  error : Option String := Option.none

/-- A value stored in `SessionContext.references` (`dict[str, Any]`): either a
whole `CommandResult` (for the `last_command` keys) or an embedded value. -/
inductive RefValue where
  | cmd : CommandResult → RefValue
  | val : Value → RefValue

/-- `SessionContext` dataclass from session.py. -/
structure SessionContext where
  session_id : String
  started_at : Nat := 0
  history : List CommandResult := []
  references : List (String × RefValue) := []

/-- `SessionContext._update_references`, translated branch by branch. -/
def update_references (s : SessionContext) (c : CommandResult) : SessionContext :=
  let refs := dset s.references ("last_" ++ c.service ++ "_command") (.cmd c)
  let refs := dset refs "last_command" (.cmd c)
  let refs :=
    if c.success && c.result.truthy then
      if c.service = "gmail" then
        if c.intent = "search_email" then
          let refs := dset refs "last_emails" (.val c.result)
          match c.result with
          | .list (x :: _) => dset refs "last_email" (.val x)
          | _ => refs
        else if c.intent = "send_email" then
          dset refs "last_sent_email" (.val c.result)
        else refs
      else if c.service = "calendar" then
        if c.intent = "list_events" ∨ c.intent = "search_event" then
          let refs := dset refs "last_events" (.val c.result)
          match c.result with
          | .list (x :: _) =>
              dset (dset refs "last_event" (.val x)) "next_meeting" (.val x)
          | _ => refs
        else if c.intent = "create_event" then
          dset refs "last_created_event" (.val c.result)
        else refs
      else if c.service = "drive" then
        if c.intent = "search_file" then
          let refs := dset refs "last_files" (.val c.result)
          match c.result with
          | .list (x :: _) => dset refs "last_file" (.val x)
          | _ => refs
        else refs
      else refs
    else refs
  { s with references := refs }

/-- The inputs of one `add_command` call (timestamp supplied as a tick). -/
structure AddInput where
  command : String
  service : String
  intent : String
  parameters : Dict
  result : Value
  success : Bool := true
  error : Option String := Option.none
  now : Nat := 0

/-- The `CommandResult` that `add_command` constructs from its arguments. -/
def mkCmd (i : AddInput) : CommandResult :=
  { command := i.command, timestamp := i.now, service := i.service,
    intent := i.intent, parameters := i.parameters, result := i.result,
    success := i.success, error := i.error }

/-- `SessionContext.add_command`: append to history, then update references. -/
def add_command (s : SessionContext) (i : AddInput) : SessionContext :=
  update_references { s with history := s.history ++ [mkCmd i] } (mkCmd i)

/-- A sequence of `add_command` calls, oldest first. -/
def add_all (s : SessionContext) (inputs : List AddInput) : SessionContext :=
  inputs.foldl add_command s

/-- `SessionContext.get_last_command`. -/
def get_last_command (s : SessionContext) : Option CommandResult :=
  s.history.getLast?

/-- `SessionContext.get_reference`. -/
def get_reference (s : SessionContext) (key : String) : Option RefValue :=
  dget s.references key

/-- The body of `SessionContext.resolve_reference`, translated with the
source's fall-through structure: the bare-pronoun block and the positional
blocks only return when their inner conditions hold, otherwise control
continues to the next block. -/
def resolve_reference_core (s : SessionContext) (text : String) :
    Option String × Option RefValue :=
    let tl := pyLower text
    if anyIn ["that email", "the email", "this email"] tl then
      (some "email", dget s.references "last_email")
    else if strIn "last email" tl then
      (some "email", dget s.references "last_email")
    else if anyIn ["that meeting", "the meeting", "this meeting"] tl then
      (some "event", dget s.references "last_event")
    else if anyIn ["next meeting", "upcoming meeting"] tl then
      (some "event", dget s.references "next_meeting")
    else if anyIn ["that file", "the file", "this file"] tl then
      (some "file", dget s.references "last_file")
    else
      let pronoun : Option (Option String × Option RefValue) :=
        if tl = "it" ∨ tl = "that" ∨ tl = "this" then
          match get_last_command s with
          | some last_cmd =>
            if last_cmd.service = "gmail" then
              some (some "email", dget s.references "last_email")
            else if last_cmd.service = "calendar" then
              some (some "event", dget s.references "last_event")
            else if last_cmd.service = "drive" then
              some (some "file", dget s.references "last_file")
            else Option.none
          | Option.none => Option.none
        else Option.none
      match pronoun with
      | some r => r
      | Option.none =>
        let firstPos : Option (Option String × Option RefValue) :=
          if strIn "first one" tl || strIn "first" tl then
            match get_last_command s with
            | some last_cmd =>
              if last_cmd.result.truthy then
                match last_cmd.result with
                | .list (x :: _) => some (some last_cmd.service, some (.val x))
                | _ => Option.none
              else Option.none
            | Option.none => Option.none
          else Option.none
        match firstPos with
        | some r => r
        | Option.none =>
          let secondPos : Option (Option String × Option RefValue) :=
            if strIn "second one" tl || strIn "second" tl then
              match get_last_command s with
              | some last_cmd =>
                if last_cmd.result.truthy then
                  match last_cmd.result with
                  | .list (_ :: y :: _) => some (some last_cmd.service, some (.val y))
                  | _ => Option.none
                else Option.none
              | Option.none => Option.none
            else Option.none
          match secondPos with
          | some r => r
          | Option.none => (Option.none, Option.none)

/-- `SessionContext.resolve_reference`. The method only reads session state
(no statement in the source assigns to `self`); the embedding therefore
returns the unchanged context alongside the `(kind, entity)` pair. -/
def resolve_reference (s : SessionContext) (text : String) :
    SessionContext × (Option String × Option RefValue) :=
  (s, resolve_reference_core s text)

/-! ## Workflow Engine (src/orchestrator/workflow_engine.py) -/

/-- `MultiServiceIntent` pydantic model (confidence, a float in `[0,1]`,
embedded as a rational; no claim depends on it). -/
structure MultiServiceIntent where
  multi_service : Bool
  services : List String := []
  operations : List Dict := []
  reasoning : String := ""
  confidence : Rat := 1

/-- `WorkflowEngine.detect_multi_service`. The language-model collaborator
call `self.llm.parse_intent(...)` is an external opaque function; its result
(`None` on failure) is passed in. A pydantic model instance is always truthy,
so `if intent and intent.multi_service` tests presence then the flag. -/
def detect_multi_service (llm_result : Option MultiServiceIntent) :
    Option MultiServiceIntent :=
  match llm_result with
  | some intent => if intent.multi_service then some intent else Option.none
  | Option.none => Option.none

/-- `WorkflowStep` dataclass (result/status unused by the modelled methods). -/
structure WorkflowStep where
  service : String
  intent : String
  parameters : Dict
  depends_on : Option Nat := Option.none
  result : Option Value := Option.none
  status : String := "pending"

/-- `previous_results.get(k)` for the `dict[int, Any]` of prior step results. -/
def nget (d : List (Nat × Value)) (k : Nat) : Option Value :=
  match d with
  | [] => Option.none
  | (k', v) :: rest => if k = k' then some v else nget rest k

/-- `WorkflowEngine.inject_context`. Attendee entries that are not mappings
would raise in the source (`'email' in a` on a non-container); references
produced by this program are mappings, so they are modelled as skipped. -/
def inject_context (step : WorkflowStep) (previous_results : List (Nat × Value)) :
    WorkflowStep :=
  match step.depends_on with
  | Option.none => step
  | some dep =>
    match nget previous_results dep with
    | Option.none => step
    | some dependency_result =>
      match dependency_result with
      | .dict d =>
        let ps := step.parameters
        let ps :=
          match dget d "id" with
          | some v => if (dget ps "id").isNone then dset ps "id" v else ps
          | Option.none => ps
        let ps :=
          match dget d "attendees" with
          | some att =>
            if (dget ps "emails").isNone then
              match att with
              | .list l =>
                  dset ps "emails" (.list (l.filterMap fun a =>
                    match a with
                    | .dict m => dget m "email"
                    | _ => Option.none))
              | _ => ps
            else ps
          | Option.none => ps
        { step with parameters := ps }
      | .list l =>
        if (dget step.parameters "ids").isNone then
          { step with parameters := dset step.parameters "items" (.list l) }
        else step
      | _ => step

/-! ## Parameter Inference Engine (src/utils/context_inference.py) -/

/-- Python `hay.find(needle)`: index of the first occurrence, if any. -/
def findSub (needle : List Char) : List Char → Option Nat
  | [] => if leadsWith needle [] then some 0 else Option.none
  | c :: t =>
    if leadsWith needle (c :: t) then some 0
    else match findSub needle t with
         | some i => some (i + 1)
         | Option.none => Option.none

/-- Python `s.strip()`. -/
def pystrip (l : List Char) : List Char :=
  ((l.dropWhile Char.isWhitespace).reverse.dropWhile Char.isWhitespace).reverse

/-- First token of Python `s.split()` on an already-stripped string. -/
def firstTok (l : List Char) : List Char :=
  l.takeWhile (fun c => !c.isWhitespace)

/-- Python `int(...)` on a digit run. -/
def digitsToNat (l : List Char) : Nat :=
  l.foldl (fun acc c => acc * 10 + (c.toNat - '0'.toNat)) 0

/-- Match `last\s+(\d+)\s+<word>` at the head of `l`, returning the digit
group. `\s+` and `\d+` are greedy runs over disjoint character classes, so
the maximal-munch spans coincide with the regex backtracking result. -/
def matchLastNum (word : List Char) (l : List Char) : Option (List Char) :=
  if leadsWith "last".data l then
    let rest := l.drop 4
    let sp1 := rest.takeWhile Char.isWhitespace
    let rest := rest.dropWhile Char.isWhitespace
    if sp1.isEmpty then Option.none else
    let digits := rest.takeWhile Char.isDigit
    let rest := rest.dropWhile Char.isDigit
    if digits.isEmpty then Option.none else
    let sp2 := rest.takeWhile Char.isWhitespace
    let rest := rest.dropWhile Char.isWhitespace
    if sp2.isEmpty then Option.none else
    if leadsWith word rest then some digits else Option.none
  else Option.none

/-- Python `re.search(r'last\s+(\d+)\s+<word>', l)`: the group of the
leftmost match. The trailing `s?` of `days?`/`weeks?`/`months?` can match
empty, so the pattern only needs the singular word. -/
def searchLastNum (word : List Char) : List Char → Option (List Char)
  | [] => matchLastNum word []
  | c :: t =>
    match matchLastNum word (c :: t) with
    | some d => some d
    | Option.none => searchLastNum word t

/-- Python truthiness of a reference entry: a dataclass instance is always
truthy, an embedded value by its own truthiness. -/
def RefValue.truthy : RefValue → Bool
  | .cmd _ => true
  | .val v => v.truthy

/-- `refs.get(k1) or refs.get(k2)` with Python `or` truthiness. -/
def refGetOr (refs : List (String × RefValue)) (k1 k2 : String) :
    Option RefValue :=
  match dget refs k1 with
  | some r => if r.truthy then some r else dget refs k2
  | Option.none => dget refs k2

/-- `ContextInferenceEngine` state. The Google-service collaborators are
opaque oracles: `gmail_service.search_emails(query, max_results)` and
`calendar_service.list_events(days_ahead, max_results)`; `None` from an
oracle models the call raising (every call site wraps them in try/except).
The drive service is not used by any modelled method. -/
structure ContextInferenceEngine where
  session : Option SessionContext := Option.none
  gmail_service : Option (String → Nat → Option (List Value)) := Option.none
  calendar_service : Option (Nat → Nat → Option (List Value)) := Option.none

/-- The coarse date-window block of `_infer_meeting_params`:
"today"+"meeting" → 1, "this week" → 7, "next week" → 14. -/
def inferDateWindow (command : String) (params : Dict) : Dict :=
  if strIn "today" command && strIn "meeting" command then
    dset params "days" (.int 1)
  else if strIn "this week" command then dset params "days" (.int 7)
  else if strIn "next week" command then dset params "days" (.int 14)
  else params

/-- `ContextInferenceEngine._infer_meeting_params`. The whole next-meeting
enrichment sits in a try/except: an oracle failure leaves everything
unchanged, and for a non-mapping event the logging call
`next_event.get('summary')` raises before any assignment, so enrichment
happens only for mapping-shaped events. The session reference write happens
before the parameter assignments, as in the source. -/
def infer_meeting_params (eng : ContextInferenceEngine) (command : String)
    (params : Dict) : ContextInferenceEngine × Dict :=
  let step1 : ContextInferenceEngine × Dict :=
    if strIn "next meeting" command || strIn "upcoming meeting" command then
      match eng.calendar_service with
      | some list_events =>
        match list_events 7 1 with
        | some (next_event :: _) =>
          match next_event with
          | .dict _ =>
            let newSession : Option SessionContext :=
              match eng.session with
              | some s =>
                  let s2 := { s with
                    references := dset s.references "next_meeting" (.val next_event) }
                  some s2
              | Option.none => Option.none
            let eng := { eng with session := newSession }
            let params := dset params "inferred_event" next_event
            let params := dset params "event_id" (vget next_event "id")
            let params := dset params "summary" (vget next_event "summary")
            (eng, params)
          | _ => (eng, params)
        | some [] => (eng, params)
        | Option.none => (eng, params)
      | Option.none => (eng, params)
    else (eng, params)
  (step1.1, inferDateWindow command step1.2)

/-- One `params['query'] += " <tok>"` / `params['query'] = "<tok>"` block of
`_infer_email_params`. `+=` on a present, truthy, non-string query (the
source would concatenate onto a non-string and raise for most shapes) is
outside the modelled domain and returns `none` (an uncaught exception). -/
def appendQuery (params : Dict) (tok : String) : Option Dict :=
  match dget params "query" with
  | some v =>
    if v.truthy then
      match v with
      | .str s => some (dset params "query" (.str (s ++ " " ++ tok)))
      | _ => Option.none
    else some (dset params "query" (.str tok))
  | Option.none => some (dset params "query" (.str tok))

/-- The `"last email" ... "from"` lookup block of `_infer_email_params`. It
sits inside try/except: an oracle failure leaves the parameters unchanged,
and for a non-mapping email `last_email.get('id')` raises after
`params['inferred_email']` was already assigned, keeping the partial update. -/
def inferFromSender (gmail : Option (String → Nat → Option (List Value)))
    (command : String) (params : Dict) : Dict :=
  if strIn "last email" command && strIn "from" command then
    match findSub "from".data command.data with
    | some from_idx =>
      let sender_part := pystrip (command.data.drop (from_idx + 5))
      if sender_part.isEmpty then params
      else
        let sender := firstTok sender_part
        match gmail with
        | some search_emails =>
          match search_emails ("from:" ++ String.mk sender) 1 with
          | some (last_email :: _) =>
            let params := dset params "inferred_email" last_email
            match last_email with
            | .dict _ => dset params "email_id" (vget last_email "id")
            | _ => params
          | some [] => params
          | Option.none => params
        | Option.none => params
    | Option.none => params
  else params

/-- The filter-token blocks of `_infer_email_params`, in source order; a
`none` entry is a block whose condition fails on this command. The blocks
share one update shape (`appendQuery`), so they are tabulated: `unread`,
`important`/`priority`, `last N days`, `last N weeks`, `last N months`,
`last week` (absent a numbered weeks match), `last month` (absent a numbered
months match). The `last N days` filter embeds the matched digit group as
text, the weeks/months filters convert it with `int(...)` first, exactly as
the source does. -/
def queryFilters (command : String) : List (Option String) :=
  [ if strIn "unread" command then some "is:unread" else Option.none,
    if strIn "important" command || strIn "priority" command then some "is:important"
    else Option.none,
    (searchLastNum "day".data command.data).map
      (fun digits => "newer_than:" ++ String.mk digits ++ "d"),
    (searchLastNum "week".data command.data).map
      (fun digits => "newer_than:" ++ toString (digitsToNat digits * 7) ++ "d"),
    (searchLastNum "month".data command.data).map
      (fun digits => "newer_than:" ++ toString (digitsToNat digits * 30) ++ "d"),
    if strIn "last week" command && (searchLastNum "week".data command.data).isNone then
      some "newer_than:7d"
    else Option.none,
    if strIn "last month" command && (searchLastNum "month".data command.data).isNone then
      some "newer_than:30d"
    else Option.none ]

/-- The query text produced by appending the firing filter tokens,
space-joined, onto an existing query `s` (the specification-side description
of the additive update, to be compared with `applyFilters`). -/
def joinTokens (s : String) (toks : List (Option String)) : String :=
  toks.foldl (fun acc t =>
    match t with
    | some tok => acc ++ " " ++ tok
    | Option.none => acc) s

/-- Run the filter blocks in order, each firing block performing one
`appendQuery` update. -/
def applyFilters (params : Dict) : List (Option String) → Option Dict
  | [] => some params
  | Option.none :: rest => applyFilters params rest
  | some tok :: rest => do
      let p ← appendQuery params tok
      applyFilters p rest

/-- `ContextInferenceEngine._infer_email_params`: the sender-lookup block,
then the seven filter blocks in source order. -/
def infer_email_params (gmail : Option (String → Nat → Option (List Value)))
    (command : String) (params : Dict) : Option Dict :=
  applyFilters (inferFromSender gmail command params) (queryFilters command)

/-- Attendee e-mails of one mapping-shaped event value
(`[a.get('email') for a in ev['attendees'] if 'email' in a]`); non-mapping
events or attendee lists contribute nothing, matching the reachable states
this program produces. -/
def eventAttendeeEmails (ev : Value) : List Value :=
  match ev with
  | .dict d =>
    match dget d "attendees" with
    | some (.list l) =>
        l.filterMap fun a =>
          match a with
          | .dict m => dget m "email"
          | _ => Option.none
    | _ => []
  | _ => []

/-- `ContextInferenceEngine._infer_attendees` (reached only for send_email
commands mentioning "attendees"). References under `next_meeting`/`last_event`
are embedded values in every reachable state, and the events this program
stores are mappings; other shapes are modelled as contributing no attendees. -/
def infer_attendees (sess : Option SessionContext) (command : String)
    (params : Dict) : Dict :=
  let attendees : List Value :=
    if strIn "meeting attendees" command || strIn "event attendees" command then
      match sess with
      | some s =>
        match refGetOr s.references "next_meeting" "last_event" with
        | some r =>
          if r.truthy then
            match r with
            | .val ev => eventAttendeeEmails ev
            | .cmd _ => []
          else []
        | Option.none => []
      | Option.none => []
    else if strIn "the attendees" command || strIn "all attendees" command then
      match sess with
      | some s =>
        match get_last_command s with
        | some last_cmd =>
          if last_cmd.service = "calendar" then
            if last_cmd.result.truthy then
              match last_cmd.result with
              | .list events => events.flatMap eventAttendeeEmails
              | _ => []
            else []
          else []
        | Option.none => []
      | Option.none => []
    else []
  if attendees.isEmpty then params
  else
    let params :=
      match dget params "to" with
      | Option.none => dset params "to" (.list attendees)
      | some v =>
        if !v.truthy then dset params "to" (.list attendees)
        else
          match v with
          | .list l => dset params "to" (.list (l ++ attendees))
          | _ => dset params "to" (.list (v :: attendees))
    dset params "inferred_attendees" (.bool true)

/-- `last_x.get('id')` on a reference entry; in every reachable state these
keys hold embedded mapping values. -/
def rvget (r : RefValue) (k : String) : Value :=
  match r with
  | .val v => vget v k
  | .cmd _ => .none

/-- The value assigned by `params['inferred_file'] = last_file` (and its
email/event analogues): the embedded value held by the reference. -/
def rval (r : RefValue) : Value :=
  match r with
  | .val v => v
  | .cmd _ => .none

/-- The bare-pronoun test of `_resolve_pronouns`:
`command in ["it","that","this"] or " it " in f" {command} " or ...`. -/
def pronounGuard (command : String) : Bool :=
  (command = "it" ∨ command = "that" ∨ command = "this")
  || strIn " it " (" " ++ command ++ " ")
  || strIn " that " (" " ++ command ++ " ")
  || strIn " this " (" " ++ command ++ " ")

/-- `ContextInferenceEngine._resolve_pronouns`. -/
def resolve_pronouns (sess : Option SessionContext) (command : String)
    (intent : String) (params : Dict) : Dict :=
  match sess with
  | Option.none => params
  | some s =>
    let params :=
      if pronounGuard command then
        if intent ∈ ["share_file", "download_file", "delete_file"] then
          match dget s.references "last_file" with
          | some last_file =>
            if last_file.truthy then
              dset (dset params "file_id" (rvget last_file "id"))
                "inferred_file" (rval last_file)
            else params
          | Option.none => params
        else if intent ∈ ["read_email", "delete_email"] then
          match dget s.references "last_email" with
          | some last_email =>
            if last_email.truthy then
              dset (dset params "email_id" (rvget last_email "id"))
                "inferred_email" (rval last_email)
            else params
          | Option.none => params
        else if intent ∈ ["update_event", "delete_event"] then
          match dget s.references "last_event" with
          | some last_event =>
            if last_event.truthy then
              dset (dset params "event_id" (rvget last_event "id"))
                "inferred_event" (rval last_event)
            else params
          | Option.none => params
        else params
      else params
    if strIn " them " (" " ++ command ++ " ") || leadsWith "them".data command.data then
      match refGetOr s.references "next_meeting" "last_event" with
      | some r =>
        if r.truthy then
          let attendees :=
            match r with
            | .val ev => eventAttendeeEmails ev
            | .cmd _ => []
          if attendees.isEmpty then params
          else if intent = "send_email" then dset params "to" (.list attendees)
          else if intent = "share_file" then
            let params := dset params "emails" (.list attendees)
            dset params "email"
              (if attendees.length = 1 then attendees.head! else .list attendees)
          else params
        else params
      | Option.none => params
    else params

/-- `ContextInferenceEngine.infer_parameters`: copy the parameters, lowercase
the command, and apply the four rules in source order. The e-mail rule can
raise (see `appendQuery`), which propagates out of the method. -/
def infer_parameters (eng : ContextInferenceEngine) (command intent : String)
    (parameters : Dict) : Option (ContextInferenceEngine × Dict) := do
  let cl := pyLower command
  let step1 :=
    if intent ∈ ["search_event", "update_event", "delete_event", "list_events"] then
      infer_meeting_params eng cl parameters
    else (eng, parameters)
  let eng := step1.1
  let params := step1.2
  let params ←
    if intent ∈ ["send_email", "read_email", "delete_email", "search_email"] then
      infer_email_params eng.gmail_service cl params
    else pure params
  let params :=
    if intent = "send_email" && strIn "attendees" cl then
      infer_attendees eng.session cl params
    else params
  let params := resolve_pronouns eng.session cl intent params
  pure (eng, params)

/-! ## Helper lemmas -/

theorem dget_dset_self {α : Type} (d : List (String × α)) (k : String) (v : α) :
    dget (dset d k v) k = some v := by
  induction d with
  | nil => simp [dget, dset]
  | cons hd tl ih =>
    obtain ⟨k', v'⟩ := hd
    by_cases h : k = k' <;> simp [dget, dset, h, ih]

theorem dget_dset_ne {α : Type} (d : List (String × α)) (k k' : String) (v : α)
    (h : k' ≠ k) : dget (dset d k v) k' = dget d k' := by
  induction d with
  | nil => simp [dget, dset, h]
  | cons hd tl ih =>
    obtain ⟨k₀, v₀⟩ := hd
    by_cases hk : k = k₀
    · subst hk
      simp [dget, dset, h]
    · by_cases hk' : k' = k₀ <;> simp [dget, dset, hk, hk', ih]

theorem record_action_max (m : SafetyManager) (i : ActionInput) :
    (record_action m i).max_undo_actions = m.max_undo_actions := rfl

theorem drop_append_drop {α : Type} (xs ys : List α) (k j : Nat) (h : k ≤ xs.length) :
    (xs.drop k ++ ys).drop j = (xs ++ ys).drop (k + j) := by
  rw [← List.drop_append_of_le_length h, List.drop_drop]

/-- The undo stack after a run of `record_action` calls is the suffix of all
recorded actions that fits the capacity. -/
theorem record_all_stack (inputs : List ActionInput) :
    ∀ m : SafetyManager, m.max_undo_actions = 10 → m.undo_stack.length ≤ 10 →
      (record_all m inputs).undo_stack
        = (m.undo_stack ++ inputs.map mkAction).drop
            (m.undo_stack.length + inputs.length - 10) := by
  induction inputs with
  | nil =>
    intro m _ hle
    simp [record_all, Nat.sub_eq_zero_of_le hle]
  | cons i rest ih =>
    intro m hmax hle
    have hstack : (record_action m i).undo_stack
        = (m.undo_stack ++ [mkAction i]).drop (m.undo_stack.length + 1 - 10) := by
      simp only [record_action, hmax]
      by_cases h : (m.undo_stack ++ [mkAction i]).length > 10
      · have h1 : m.undo_stack.length + 1 - 10 = 1 := by
          simp only [List.length_append, List.length_cons, List.length_nil] at h; omega
        rw [if_pos h, h1]
      · have h0 : m.undo_stack.length + 1 - 10 = 0 := by
          simp only [List.length_append, List.length_cons, List.length_nil] at h
          omega
        rw [if_neg h, h0, List.drop_zero]
    have hlen' : (record_action m i).undo_stack.length
        = m.undo_stack.length + 1 - (m.undo_stack.length + 1 - 10) := by
      rw [hstack]; simp
    have hle' : (record_action m i).undo_stack.length ≤ 10 := by omega
    have hrec : record_all m (i :: rest) = record_all (record_action m i) rest := rfl
    have hk : m.undo_stack.length + 1 - 10 ≤ (m.undo_stack ++ [mkAction i]).length := by
      simp; omega
    rw [hrec, ih _ (by rw [record_action_max]; exact hmax) hle', hstack,
        drop_append_drop _ _ _ _ hk]
    have hlists : m.undo_stack ++ (i :: rest).map mkAction
        = (m.undo_stack ++ [mkAction i]) ++ rest.map mkAction := by simp
    rw [hlists]
    congr 1
    simp only [List.length_cons, List.length_drop, List.length_append, List.length_nil]
    omega

/-! ## Claim theorems -/

/-- C1, as stated, fails on the code: `requires_confirmation("send_email", ·)`
with a 3-address `to` list is true, not false, because `send_email` is in the
destructive list and the destructive check precedes the recipient-count
check. -/
theorem C1_three_recipients_counterexample :
    requires_confirmation "send_email"
      [("to", .list [.str "a@x.com", .str "b@x.com", .str "c@x.com"])] = true
    ∧ is_destructive "send_email" = true := ⟨rfl, rfl⟩

/-- C1 (amended): `requires_confirmation("send_email", ·)` is true with a
4-address `to` list and also true with a 3-address one (send_email itself is
destructive); in general `requires_confirmation(intent, parameters)` is true
whenever `is_destructive(intent)` is true, or the intent is send_email with
more than 3 recipients, or the intent is share_file with a non-empty `email`
parameter lacking the internal domain suffix. -/
theorem C1_requires_confirmation_amended (intent : String) (ps : Dict) :
    (is_destructive intent = true → requires_confirmation intent ps = true)
    ∧ (∀ l : List Value, intent = "send_email" → dget ps "to" = some (.list l) →
        l.length > 3 → requires_confirmation intent ps = true)
    ∧ (∀ e : String, intent = "share_file" → dget ps "email" = some (.str e) →
        e ≠ "" → is_internal_email e = false → requires_confirmation intent ps = true)
    ∧ requires_confirmation "send_email"
        [("to", .list [.str "a@x.com", .str "b@x.com", .str "c@x.com", .str "d@x.com"])]
      = true
    ∧ requires_confirmation "send_email"
        [("to", .list [.str "e@x.com", .str "f@x.com", .str "g@x.com"])] = true := by
  refine ⟨?_, ?_, ?_, rfl, rfl⟩
  · intro h
    simp [requires_confirmation, h]
  · intro l hi _ _
    subst hi
    have hd : is_destructive "send_email" = true := rfl
    simp [requires_confirmation, hd]
  · intro e hi _ _ _
    subst hi
    have hd : is_destructive "share_file" = true := rfl
    simp [requires_confirmation, hd]

/-- Witness for C1's amended theorem at concrete inputs: a destructive intent,
a 4-recipient send, and an external share all require confirmation. -/
theorem C1_requires_confirmation_amended_witness :
    requires_confirmation "delete_file" [] = true
    ∧ requires_confirmation "send_email"
        [("to", .list [.str "a", .str "b", .str "c", .str "d"])] = true
    ∧ requires_confirmation "share_file" [("email", .str "x@gmail.com")] = true := by
  refine ⟨(C1_requires_confirmation_amended "delete_file" []).1 rfl, ?_, ?_⟩
  · exact (C1_requires_confirmation_amended "send_email"
        [("to", .list [.str "a", .str "b", .str "c", .str "d"])]).2.1
      [.str "a", .str "b", .str "c", .str "d"] rfl rfl (by decide)
  · exact (C1_requires_confirmation_amended "share_file"
        [("email", .str "x@gmail.com")]).2.2.1
      "x@gmail.com" rfl rfl (by decide) rfl

/-- C2, as stated, fails on the code: `detect_multi_service` returns the
collaborator's intent whenever `multi_service` is true, without checking the
operations list, so a `multi_service=true` result with empty operations is
returned non-null rather than null. -/
theorem C2_empty_operations_counterexample :
    (detect_multi_service
        (some { multi_service := true, reasoning := "r" })).isSome = true
    ∧ ({ multi_service := true, reasoning := "r" } : MultiServiceIntent).operations
      = [] := ⟨rfl, rfl⟩

/-- C2 (amended): `detect_multi_service` returns the collaborator's result
exactly when it is non-null with `multi_service = true`, regardless of the
operations list; it returns null when `multi_service` is false or the
collaborator failed. -/
theorem C2_detect_multi_service_amended (r : Option MultiServiceIntent) :
    (∀ m, r = some m → m.multi_service = true → detect_multi_service r = some m)
    ∧ (∀ m, r = some m → m.multi_service = false →
        detect_multi_service r = Option.none)
    ∧ (r = Option.none → detect_multi_service r = Option.none) := by
  refine ⟨?_, ?_, ?_⟩
  · intro m hr hm
    subst hr
    simp [detect_multi_service, hm]
  · intro m hr hm
    subst hr
    simp [detect_multi_service, hm]
  · intro hr
    subst hr
    rfl

/-- Witness for C2's amended theorem at concrete collaborator results. -/
theorem C2_detect_multi_service_amended_witness :
    detect_multi_service (some { multi_service := true, reasoning := "w" })
      = some { multi_service := true, reasoning := "w" }
    ∧ detect_multi_service (some { multi_service := false, reasoning := "w" })
      = Option.none
    ∧ detect_multi_service Option.none = Option.none := by
  refine ⟨?_, ?_, ?_⟩
  · exact (C2_detect_multi_service_amended
        (some { multi_service := true, reasoning := "w" })).1 _ rfl rfl
  · exact (C2_detect_multi_service_amended
        (some { multi_service := false, reasoning := "w" })).2.1 _ rfl rfl
  · exact (C2_detect_multi_service_amended Option.none).2.2 rfl

/-- The date-window block never touches keys other than `days`. -/
theorem dget_inferDateWindow (c : String) (p : Dict) (k : String) (h : k ≠ "days") :
    dget (inferDateWindow c p) k = dget p k := by
  unfold inferDateWindow
  repeat' split
  all_goals simp [dget_dset_ne _ _ _ _ h]

/-- Full run of `_infer_meeting_params` when the guard phrase occurs, the
calendar oracle answers the 7-day-ahead max-1 query with at least one
mapping-shaped event, and a session is attached. -/
theorem infer_meeting_params_run (eng : ContextInferenceEngine)
    (cal : Nat → Nat → Option (List Value)) (s : SessionContext)
    (command : String) (params : Dict) (ev : Value) (d : Dict) (rest : List Value)
    (hcal : eng.calendar_service = some cal) (hsess : eng.session = some s)
    (hguard : (strIn "next meeting" command || strIn "upcoming meeting" command) = true)
    (hlist : cal 7 1 = some (ev :: rest)) (hev : ev = .dict d) :
    infer_meeting_params eng command params
      = ({ eng with session := some { s with
             references := dset s.references "next_meeting" (.val ev) } },
         inferDateWindow command
           (dset (dset (dset params "inferred_event" ev) "event_id" (vget ev "id"))
             "summary" (vget ev "summary"))) := by
  subst hev
  simp only [infer_meeting_params, hguard, hcal, hlist, hsess, if_pos]

/-- C3, as stated, fails on the code: the next-meeting lookup queries the
calendar oracle 7 days ahead (`days_ahead=7, max_results=1`), not 1 day
ahead. Two calendar oracles that agree on every 1-day-ahead query (both
reply with no events there) drive `_infer_meeting_params` to different
results, because the code consults the 7-day-ahead query where they
differ. -/
theorem C3_days_ahead_counterexample :
    ((fun d _ => if d = 7 then
        some [Value.dict [("id", .str "e7"), ("summary", .str "standup")]]
      else some ([] : List Value)) : Nat → Nat → Option (List Value)) 1 1
      = ((fun _ _ => some ([] : List Value)) : Nat → Nat → Option (List Value)) 1 1
    ∧ dget (infer_meeting_params
        { calendar_service := some (fun d _ => if d = 7 then
            some [Value.dict [("id", .str "e7"), ("summary", .str "standup")]]
          else some []) } "next meeting" []).2 "event_id" = some (.str "e7")
    ∧ dget (infer_meeting_params
        { calendar_service := some (fun _ _ => some []) } "next meeting" []).2
        "event_id" = Option.none := ⟨rfl, rfl, rfl⟩

/-- C3 (amended): for every command containing "next meeting" or "upcoming
meeting", `_infer_meeting_params` (the rule `inferParameters` applies to
every event-class intent) issues a calendar lookup ordered **7 days** ahead
with at most 1 result; when a (mapping-shaped) event is returned it sets the
parameters `event_id`, `summary` and `inferred_event` from that event,
writes the `next_meeting` entry into the attached Session Memory's
references, and its outcome depends on the calendar oracle only through that
7-day-ahead, max-1 query. -/
theorem C3_infer_meeting_amended (eng : ContextInferenceEngine)
    (cal : Nat → Nat → Option (List Value)) (s : SessionContext)
    (command : String) (params : Dict) (ev : Value) (d : Dict) (rest : List Value) :
    eng.calendar_service = some cal →
    eng.session = some s →
    (strIn "next meeting" command || strIn "upcoming meeting" command) = true →
    cal 7 1 = some (ev :: rest) →
    ev = .dict d →
    (dget (infer_meeting_params eng command params).2 "event_id"
        = some (vget ev "id")
     ∧ dget (infer_meeting_params eng command params).2 "summary"
        = some (vget ev "summary")
     ∧ dget (infer_meeting_params eng command params).2 "inferred_event" = some ev
     ∧ (∃ s' : SessionContext,
          (infer_meeting_params eng command params).1.session = some s'
          ∧ dget s'.references "next_meeting" = some (.val ev))
     ∧ (∀ cal' : Nat → Nat → Option (List Value), cal' 7 1 = cal 7 1 →
          ((infer_meeting_params { eng with calendar_service := some cal' }
              command params).1.session,
           (infer_meeting_params { eng with calendar_service := some cal' }
              command params).2)
          = ((infer_meeting_params eng command params).1.session,
             (infer_meeting_params eng command params).2))) := by
  intro hcal hsess hguard hlist hev
  have hrun := infer_meeting_params_run eng cal s command params ev d rest
    hcal hsess hguard hlist hev
  refine ⟨?_, ?_, ?_, ?_, ?_⟩
  · rw [hrun]
    simp only []
    rw [dget_inferDateWindow _ _ _ (by decide)]
    rw [dget_dset_ne _ _ _ _ (by decide), dget_dset_self]
  · rw [hrun]
    simp only []
    rw [dget_inferDateWindow _ _ _ (by decide), dget_dset_self]
  · rw [hrun]
    simp only []
    rw [dget_inferDateWindow _ _ _ (by decide)]
    rw [dget_dset_ne _ _ _ _ (by decide), dget_dset_ne _ _ _ _ (by decide),
        dget_dset_self]
  · rw [hrun]
    exact ⟨_, rfl, dget_dset_self _ _ _⟩
  · intro cal' hagree
    have hrun' := infer_meeting_params_run
      { eng with calendar_service := some cal' } cal' s command params ev d rest
      rfl hsess hguard (by rw [hagree]; exact hlist) hev
    rw [hrun, hrun']

/-- Witness for C3's amended theorem: a concrete engine whose calendar
oracle returns one event for the 7-day-ahead query gets `event_id` from that
event. -/
theorem C3_infer_meeting_amended_witness :
    dget (infer_meeting_params
      { session := some { session_id := "w" },
        calendar_service := some (fun _ _ =>
          some [Value.dict [("id", .str "E9"), ("summary", .str "sync")]]) }
      "next meeting" []).2 "event_id" = some (.str "E9") :=
  (C3_infer_meeting_amended
    { session := some { session_id := "w" },
      calendar_service := some (fun _ _ =>
        some [Value.dict [("id", .str "E9"), ("summary", .str "sync")]]) }
    (fun _ _ => some [Value.dict [("id", .str "E9"), ("summary", .str "sync")]])
    { session_id := "w" } "next meeting" []
    (.dict [("id", .str "E9"), ("summary", .str "sync")])
    [("id", .str "E9"), ("summary", .str "sync")] []
    rfl rfl rfl rfl rfl).1

/-- C4: the undo stack never exceeds capacity 10: after any sequence of
`record_action` calls from a fresh manager the stack is the suffix of the
recorded actions that fits (oldest evicted first), its length is at most 10,
and after 15 calls it has length 10 and holds exactly the 10 most recent
actions in insertion order. -/
theorem C4_undo_stack_bound (inputs : List ActionInput) :
    get_undo_stack (record_all (SafetyManager.new false) inputs)
        = (inputs.map mkAction).drop (inputs.length - 10)
    ∧ (get_undo_stack (record_all (SafetyManager.new false) inputs)).length ≤ 10
    ∧ (inputs.length = 15 →
        (get_undo_stack (record_all (SafetyManager.new false) inputs)).length = 10
        ∧ get_undo_stack (record_all (SafetyManager.new false) inputs)
            = (inputs.map mkAction).drop 5) := by
  have h := record_all_stack inputs (SafetyManager.new false) rfl
    (by simp [SafetyManager.new])
  simp only [SafetyManager.new] at h
  simp only [List.nil_append, List.length_nil, Nat.zero_add] at h
  have hg : get_undo_stack (record_all (SafetyManager.new false) inputs)
      = (inputs.map mkAction).drop (inputs.length - 10) := h
  refine ⟨hg, ?_, ?_⟩
  · rw [hg]
    simp only [List.length_drop, List.length_map]
    omega
  · intro h15
    rw [hg, h15]
    constructor
    · simp only [List.length_drop, List.length_map, h15]
    · rfl

/-- Witness for C4's length-15 case: 15 concrete recorded actions leave a
stack of exactly 10. -/
theorem C4_undo_stack_bound_witness :
    ((List.range 15).map (fun n =>
        ({ a_type := .send_email, resource_id := toString n, service := "gmail",
           details := [], undo_data := Option.none, now := n } : ActionInput))).length
      = 15
    ∧ (get_undo_stack (record_all (SafetyManager.new false)
        ((List.range 15).map (fun n =>
          ({ a_type := .send_email, resource_id := toString n, service := "gmail",
             details := [], undo_data := Option.none, now := n } : ActionInput))))).length
      = 10 :=
  ⟨rfl,
   ((C4_undo_stack_bound ((List.range 15).map (fun n =>
      ({ a_type := .send_email, resource_id := toString n, service := "gmail",
         details := [], undo_data := Option.none, now := n } : ActionInput)))).2.2
     rfl).1⟩

/-- `update_references` always leaves `last_command` at the just-added
record, whatever the service/intent branches add afterwards. -/
theorem update_references_last_command (s : SessionContext) (c : CommandResult) :
    dget (update_references s c).references "last_command" = some (.cmd c) := by
  unfold update_references
  repeat' split
  all_goals simp [dget_dset_self, dget_dset_ne]

/-- `add_all` appends the constructed records to the history in order. -/
theorem add_all_history (inputs : List AddInput) :
    ∀ s : SessionContext, (add_all s inputs).history = s.history ++ inputs.map mkCmd := by
  induction inputs with
  | nil => intro s; simp [add_all]
  | cons i rest ih =>
    intro s
    have hstep : add_all s (i :: rest) = add_all (add_command s i) rest := rfl
    have hhist : (add_command s i).history = s.history ++ [mkCmd i] := rfl
    rw [hstep, ih, hhist]
    simp

/-- C5: after any non-empty sequence of `add_command` calls on a fresh
session, `references["last_command"]` is the most recent record appended to
the history, regardless of services, intents, or success flags. -/
theorem C5_last_command_recency (init : List AddInput) (last : AddInput) :
    dget (add_all { session_id := "default" } (init ++ [last])).references
        "last_command" = some (.cmd (mkCmd last))
    ∧ (add_all { session_id := "default" } (init ++ [last])).history
      = (init ++ [last]).map mkCmd := by
  constructor
  · have hsplit : add_all { session_id := "default" } (init ++ [last])
        = add_command (add_all { session_id := "default" } init) last := by
      simp [add_all, List.foldl_append]
    rw [hsplit]
    exact update_references_last_command _ _
  · rw [add_all_history]
    rfl

/-- C6, as stated, fails on the code: a calendar `list_events` record whose
result is a non-empty sequence but whose `success` flag is false does not set
`last_event` (the reference update is guarded by `success`). -/
theorem C6_success_false_counterexample :
    dget (add_command { session_id := "s" }
      { command := "c", service := "calendar", intent := "list_events",
        parameters := [], result := .list [.str "e"], success := false }).references
      "last_event" = Option.none
    ∧ (Value.list [.str "e"]).truthy = true := ⟨rfl, rfl⟩

/-- C6 (amended): for every *successful* `add_command` call with service
calendar and intent `list_events` or `search_event` whose result is a
non-empty list, `references["last_event"]` afterwards is the first element of
that list. -/
theorem C6_last_event_amended (s : SessionContext) (i : AddInput) (x : Value)
    (rest : List Value) :
    i.service = "calendar" → (i.intent = "list_events" ∨ i.intent = "search_event") →
    i.result = .list (x :: rest) → i.success = true →
    dget (add_command s i).references "last_event" = some (.val x) := by
  intro hs hi hr hsc
  rcases hi with hi | hi <;>
    simp [add_command, update_references, mkCmd, hs, hi, hr, hsc, Value.truthy,
          dget_dset_self, dget_dset_ne]

/-- Witness for C6's amended theorem at a concrete successful calendar
search. -/
theorem C6_last_event_amended_witness :
    dget (add_command { session_id := "w" }
      { command := "list", service := "calendar", intent := "search_event",
        parameters := [], result := .list [.dict [("id", .str "E1")], .str "other"],
        success := true }).references "last_event"
      = some (.val (.dict [("id", .str "E1")])) :=
  C6_last_event_amended _ _ _ _ rfl (Or.inr rfl) rfl rfl

/-- `appendQuery` on a present, non-empty string query appends the token
space-joined. -/
theorem appendQuery_str (params : Dict) (s tok : String)
    (h : dget params "query" = some (.str s)) (hs : s ≠ "") :
    appendQuery params tok = some (dset params "query" (.str (s ++ " " ++ tok))) := by
  simp [appendQuery, h, Value.truthy, hs]

theorem append_tok_ne_empty (s tok : String) : s ++ " " ++ tok ≠ "" := by
  intro h
  have hlen := congrArg String.length h
  have h1 : (" " : String).length = 1 := rfl
  have h0 : ("" : String).length = 0 := rfl
  simp only [String.length_append, h1, h0] at hlen
  omega

/-- Running the filter blocks over a present, non-empty string query yields
exactly the old query with the firing tokens appended space-joined. -/
theorem applyFilters_query (toks : List (Option String)) :
    ∀ params (s : String), dget params "query" = some (.str s) → s ≠ "" →
      ∃ out, applyFilters params toks = some out
        ∧ dget out "query" = some (.str (joinTokens s toks)) := by
  induction toks with
  | nil =>
    intro params s h _
    exact ⟨params, rfl, by simpa [joinTokens] using h⟩
  | cons t rest ih =>
    intro params s h hs
    match t with
    | Option.none =>
      obtain ⟨out, h1, h2⟩ := ih params s h hs
      exact ⟨out, by simpa [applyFilters] using h1, by simpa [joinTokens] using h2⟩
    | some tok =>
      have happ := appendQuery_str params s tok h hs
      have hq : dget (dset params "query" (.str (s ++ " " ++ tok))) "query"
          = some (.str (s ++ " " ++ tok)) := dget_dset_self _ _ _
      obtain ⟨out, h1, h2⟩ := ih _ _ hq (append_tok_ne_empty s tok)
      refine ⟨out, ?_, ?_⟩
      · simp [applyFilters, happ, h1]
      · simpa [joinTokens] using h2

/-- The sender-lookup block never touches the `query` parameter. -/
theorem dget_inferFromSender_query (gmail : Option (String → Nat → Option (List Value)))
    (command : String) (params : Dict) :
    dget (inferFromSender gmail command params) "query" = dget params "query" := by
  unfold inferFromSender
  repeat'
    first
    | rfl
    | split
    | simp [dget_dset_ne]

/-- C7: for mail-class commands every recognized filter token (`is:unread`
for "unread", `is:important` for "important"/"priority", `newer_than:<days>d`
for the date phrases) is appended to the existing non-empty `query` parameter
space-joined, never replacing the existing query text; and on the concrete
scenario "show unread important emails" with empty parameters,
`infer_parameters` produces a query containing both the `is:unread` and
`is:important` tokens. -/
theorem C7_additive_query_filters :
    (∀ (gmail : Option (String → Nat → Option (List Value))) (command : String)
        (params : Dict) (s : String),
      dget params "query" = some (.str s) → s ≠ "" →
      ∃ out, infer_email_params gmail command params = some out
        ∧ dget out "query" = some (.str (joinTokens s (queryFilters command))))
    ∧ infer_parameters
        { session := Option.none, gmail_service := Option.none,
          calendar_service := Option.none }
        "show unread important emails" "search_email" []
        = some ({ session := Option.none, gmail_service := Option.none,
                  calendar_service := Option.none },
                [("query", .str "is:unread is:important")])
    ∧ strIn "is:unread" "is:unread is:important" = true
    ∧ strIn "is:important" "is:unread is:important" = true := by
  refine ⟨?_, rfl, rfl, rfl⟩
  intro gmail command params s h hs
  have h0 : dget (inferFromSender gmail command params) "query" = some (.str s) := by
    rw [dget_inferFromSender_query]
    exact h
  exact applyFilters_query (queryFilters command) _ s h0 hs

/-- Witness for C7's general part: a non-empty `from:alice` query gains the
`is:unread` and `newer_than:3d` tokens recognized in the command. -/
theorem C7_additive_query_filters_witness :
    dget [("query", Value.str "from:alice")] "query" = some (.str "from:alice")
    ∧ ("from:alice" : String) ≠ ""
    ∧ ∃ out, infer_email_params Option.none "unread emails from the last 3 days"
        [("query", .str "from:alice")] = some out
        ∧ dget out "query"
          = some (.str (joinTokens "from:alice"
              (queryFilters "unread emails from the last 3 days"))) :=
  ⟨rfl, by decide,
   C7_additive_query_filters.1 Option.none "unread emails from the last 3 days"
     [("query", .str "from:alice")] "from:alice" rfl (by decide)⟩

/-- C8, as stated, fails on the code: with a dependency result that is a
sequence, `inject_context` skips attaching `items` when the step's parameters
already contain an `ids` key (the source guards the assignment with
`'ids' not in step.parameters`). -/
theorem C8_items_guard_counterexample :
    dget (inject_context
      { service := "drive", intent := "share_file",
        parameters := [("ids", .str "x")], depends_on := some 0 }
      [(0, .list [.str "a"])]).parameters "items" = Option.none
    ∧ nget [(0, .list [.str "a"])] 0 = some (.list [.str "a"]) := ⟨rfl, rfl⟩

/-- C8 (amended): when the step's dependency index is present in
`previous_results`: a sequence dependency result is attached verbatim as the
step's `items` parameter unless the parameters already contain an `ids` key,
and the `id` entry of a mapping dependency result is copied into the step's
parameters unless an `id` parameter is already present. -/
theorem C8_inject_context_amended (step : WorkflowStep) (prev : List (Nat × Value))
    (k : Nat) (dep : Value) :
    step.depends_on = some k → nget prev k = some dep →
    ((∀ l : List Value, dep = .list l → dget step.parameters "ids" = Option.none →
        dget (inject_context step prev).parameters "items" = some (.list l))
     ∧ (∀ d : Dict, ∀ v : Value, dep = .dict d → dget d "id" = some v →
        dget step.parameters "id" = Option.none →
        dget (inject_context step prev).parameters "id" = some v)) := by
  intro hdep hget
  constructor
  · intro l hl hids
    subst hl
    simp [inject_context, hdep, hget, hids, dget_dset_self]
  · intro d v hd hdid hpid
    subst hd
    simp only [inject_context, hdep, hget]
    repeat' split
    all_goals simp_all [dget_dset_self, dget_dset_ne]

/-- Witness for C8's amended theorem: a list dependency lands in `items`, a
mapping dependency's `id` is copied. -/
theorem C8_inject_context_amended_witness :
    dget (inject_context
      { service := "s", intent := "i", parameters := [], depends_on := some 0 }
      [(0, .list [.str "a", .str "b"])]).parameters "items"
      = some (.list [.str "a", .str "b"])
    ∧ dget (inject_context
      { service := "s", intent := "i", parameters := [], depends_on := some 1 }
      [(1, .dict [("id", .str "F1")])]).parameters "id" = some (.str "F1") := by
  constructor
  · exact ((C8_inject_context_amended
      { service := "s", intent := "i", parameters := [], depends_on := some 0 }
      [(0, .list [.str "a", .str "b"])] 0 (.list [.str "a", .str "b"]) rfl rfl).1)
      [.str "a", .str "b"] rfl rfl
  · exact ((C8_inject_context_amended
      { service := "s", intent := "i", parameters := [], depends_on := some 1 }
      [(1, .dict [("id", .str "F1")])] 1 (.dict [("id", .str "F1")]) rfl rfl).2)
      [("id", .str "F1")] (.str "F1") rfl rfl rfl

/-- C9: `resolve_reference` is deterministic and pure — it returns the
session unchanged, and a second call on the state returned by the first
yields the same `(kind, entity)` pair. -/
theorem C9_resolve_reference_pure (s : SessionContext) (text : String) :
    (resolve_reference s text).1 = s
    ∧ (resolve_reference (resolve_reference s text).1 text).2
      = (resolve_reference s text).2
    ∧ (resolve_reference (resolve_reference s text).1 text).1 = s :=
  ⟨rfl, rfl, rfl⟩

/-- C10: on a session with no `last_email` reference, `resolve_reference` of
"that email" returns the matched kind with a null entity — the shape
`(kind, null)`, not `(null, null)` and not a present entity. -/
theorem C10_matched_kind_null_entity :
    (resolve_reference { session_id := "default" } "that email").2
      = (some "email", Option.none)
    ∧ ((resolve_reference { session_id := "default" } "that email").2).1.isSome = true
    ∧ ((resolve_reference { session_id := "default" } "that email").2).2.isNone = true
    ∧ (resolve_reference { session_id := "default" } "that email").2
      ≠ ((Option.none : Option String), (Option.none : Option RefValue)) := by
  refine ⟨rfl, rfl, rfl, ?_⟩
  intro h
  have h1 : (some "email" : Option String) = Option.none := congrArg Prod.fst h
  exact Option.noConfusion h1

end Orchestra
